import Mathlib

/-!
Verification of the rtipc lock-free single-producer/single-consumer queue and
its surrounding channel/codec layer, shallowly embedded from the Rust sources
(`src/queue.rs`, `src/channel.rs`, `src/protocol.rs`, `src/header.rs`).

The queue indices are 32-bit unsigned machine integers (`type Index = u32;`
in `lib.rs`); we model them as `Nat` values that are always below `2 ^ 32`,
with the bitwise operations written out explicitly.  All shared-memory cells
(`tail`, `head`, `chain[i]`) and both endpoints' local state are collected in
one record, and every queue operation is translated into a pure state-passing
function.  Operations are modelled at whole-operation granularity: one call of
`force_push`/`try_push`/`pop`/`flush` runs from start to finish without
interference, which is the semantics the specification's concrete scenarios
and per-operation claims are about.  Under this granularity a compare-exchange
whose expected value was read earlier in the same operation always succeeds;
the failure branches of the source are still translated faithfully.
-/

/-- `const INVALID_INDEX: Index = Index::MAX;` (queue.rs). -/
def INVALID_INDEX : Nat := 2 ^ 32 - 1

/-- `const CONSUMED_FLAG: Index = Index::MAX - Index::MAX / 2;` = bit 31. -/
def CONSUMED_FLAG : Nat := 2 ^ 31

/-- `const INDEX_MASK: Index = !ORIGIN_MASK;` = low 31 bits. -/
def INDEX_MASK : Nat := 2 ^ 31 - 1

/-- `enum ConsumeResult` (queue.rs). -/
inductive ConsumeResult where
  | QueueError
  | NoMessage
  | NoNewMessage
  | Success
  | SuccessMessagesDiscarded
deriving DecidableEq, Repr

/-- `enum ProduceForceResult` (queue.rs). -/
inductive ProduceForceResult where
  | QueueError
  | Success
  | SuccessMessageDiscarded
deriving DecidableEq, Repr

/-- `enum ProduceTryResult` (queue.rs). -/
inductive ProduceTryResult where
  | QueueError
  | QueueFull
  | Success
deriving DecidableEq, Repr

/-- The combined state of one queue: the shared index cells (`tail`, `head`,
`chain`), the producer-local fields of `ProducerQueue` (`chain` mirror,
`head`, `current`, `overrun`) and the consumer-local field of `ConsumerQueue`
(`current`, here `ccurrent`).  The number of message slots is
`chainSh.length`.  Message payloads are kept separately (`QueueSys`), since no
index operation reads them. -/
structure QState where
  tail : Nat
  head : Nat
  chainSh : List Nat
  pchain : List Nat
  phead : Nat
  current : Nat
  overrun : Nat
  ccurrent : Nat
deriving DecidableEq, Repr

/-- `Queue::is_valid_index`: `idx < self.len() as u32`. -/
def is_valid_index (s : QState) (idx : Nat) : Bool :=
  idx < s.chainSh.length

/-- `Queue::tail_fetch_or`: returns the previous value, stores the or. -/
def tail_fetch_or (s : QState) (v : Nat) : Nat × QState :=
  (s.tail, { s with tail := s.tail ||| v })

/-- `Queue::tail_compare_exchange`. -/
def tail_compare_exchange (s : QState) (cur new : Nat) : Bool × QState :=
  if s.tail = cur then (true, { s with tail := new }) else (false, s)

/-- `ProducerQueue::queue_store`: writes the local mirror and the shared cell. -/
def queue_store (s : QState) (idx v : Nat) : QState :=
  { s with pchain := s.pchain.set idx v, chainSh := s.chainSh.set idx v }

/-- `ProducerQueue::move_tail`.  (A `chain` access out of bounds would panic in
Rust; it is modelled with default `0` and never happens on states where the
callers' validity checks have passed.) -/
def move_tail (s : QState) (tail : Nat) : Bool × QState :=
  let next := s.pchain.getD (tail &&& INDEX_MASK) 0
  tail_compare_exchange s tail next

/-- `ProducerQueue::enqueue_first_message`. -/
def enqueue_first_message (s : QState) : QState :=
  let s := queue_store s s.current INVALID_INDEX
  let s := { s with tail := s.current }
  let s := { s with phead := s.current }
  { s with head := s.phead }

/-- `ProducerQueue::enqueue_message`. -/
def enqueue_message (s : QState) : QState :=
  let s := queue_store s s.current INVALID_INDEX
  let s := queue_store s s.phead s.current
  let s := { s with phead := s.current }
  { s with head := s.phead }

/-- `ProducerQueue::overrun` (the jump-over-the-consumer sub-routine).
Returns the `discarded` flag of its caller. -/
def overrun_jump (s : QState) (tail : Nat) : Bool × QState :=
  let new_current := s.pchain.getD (tail &&& INDEX_MASK) 0
  let new_tail := s.pchain.getD new_current 0
  let (ok, s) := tail_compare_exchange s tail new_tail
  if ok then
    (true, { s with overrun := tail &&& INDEX_MASK, current := new_current })
  else
    (false, { s with current := tail &&& INDEX_MASK })

/-- `ProducerQueue::force_push` (queue.rs lines 313-390). -/
def force_push (s : QState) : ProduceForceResult × QState :=
  let next := s.pchain.getD s.current 0
  if s.phead = INVALID_INDEX then
    let s := enqueue_first_message s
    (.Success, { s with current := next })
  else
    let s := enqueue_message s
    let tail := s.tail
    if ¬ is_valid_index s (tail &&& INDEX_MASK) then
      (.QueueError, s)
    else
      let consumed : Bool := (tail &&& CONSUMED_FLAG) ≠ 0
      let (discarded, s) :=
        if s.overrun ≠ INVALID_INDEX then
          if consumed then
            let s := queue_store s s.overrun next
            (false, { s with current := s.overrun, overrun := INVALID_INDEX })
          else
            let (moved, s) := move_tail s tail
            if moved then
              (true, { s with current := tail &&& INDEX_MASK })
            else
              let s := queue_store s s.overrun next
              (false, { s with current := s.overrun, overrun := INVALID_INDEX })
        else
          let full : Bool := next = (tail &&& INDEX_MASK)
          if ¬ full then
            (false, { s with current := next })
          else if ¬ consumed then
            let (moved, s) := move_tail s tail
            if moved then
              (true, { s with current := next })
            else
              overrun_jump s (tail ||| CONSUMED_FLAG)
          else
            overrun_jump s tail
      if discarded then (.SuccessMessageDiscarded, s) else (.Success, s)

/-- `ProducerQueue::try_push` (queue.rs lines 393-433). -/
def try_push (s : QState) : ProduceTryResult × QState :=
  let next := s.pchain.getD s.current 0
  if s.phead = INVALID_INDEX then
    let s := enqueue_first_message s
    (.Success, { s with current := next })
  else
    let tail := s.tail
    if ¬ is_valid_index s (tail &&& INDEX_MASK) then
      (.QueueError, s)
    else
      if s.overrun ≠ INVALID_INDEX then
        let consumed : Bool := (tail &&& CONSUMED_FLAG) ≠ 0
        if consumed then
          let s := enqueue_message s
          let s := queue_store s s.overrun next
          (.Success, { s with current := s.overrun, overrun := INVALID_INDEX })
        else
          (.QueueFull, s)
      else
        let full : Bool := next = (tail &&& INDEX_MASK)
        if ¬ full then
          let s := enqueue_message s
          (.Success, { s with current := next })
        else
          (.QueueFull, s)

/-- `ConsumerQueue::pop` (queue.rs lines 496-538).  The consumer reads the
shared chain (`chain_load`), not the producer's mirror. -/
def pop (s : QState) : ConsumeResult × QState :=
  let (tail, s) := tail_fetch_or s CONSUMED_FLAG
  if tail = INVALID_INDEX then
    (.NoMessage, s)
  else if ¬ is_valid_index s (tail &&& INDEX_MASK) then
    (.QueueError, s)
  else if tail &&& CONSUMED_FLAG = 0 then
    (.SuccessMessagesDiscarded, { s with ccurrent := tail })
  else
    let next := s.chainSh.getD s.ccurrent 0
    if next = INVALID_INDEX then
      (.NoNewMessage, s)
    else if ¬ is_valid_index s next then
      (.QueueError, s)
    else
      let (ok, s) := tail_compare_exchange s tail (next ||| CONSUMED_FLAG)
      if ok then
        (.Success, { s with ccurrent := next })
      else
        let (cur, s) := tail_fetch_or s CONSUMED_FLAG
        if ¬ is_valid_index s cur then
          (.QueueError, s)
        else
          (.SuccessMessagesDiscarded, { s with ccurrent := cur })

/-- `ConsumerQueue::flush` (queue.rs lines 464-494).  The source loops; at
whole-operation granularity the compare-exchange expects exactly the value the
`fetch_or` of the same iteration has just stored (`tail | CONSUMED_FLAG`), so
the loop body runs exactly once, which is what is modelled. -/
def flush (s : QState) : ConsumeResult × QState :=
  let (tail, s) := tail_fetch_or s CONSUMED_FLAG
  if tail = INVALID_INDEX then
    (.NoMessage, s)
  else if ¬ is_valid_index s (tail &&& INDEX_MASK) then
    (.QueueError, s)
  else
    let head := s.head
    if ¬ is_valid_index s head then
      (.QueueError, s)
    else
      let (_, s) := tail_compare_exchange s (tail ||| CONSUMED_FLAG) (head ||| CONSUMED_FLAG)
      (.Success, { s with ccurrent := head })

/-- The initial shared/local chain written by `ProducerQueue::new`:
`chain[i] = i + 1` for `i < n - 1` and `chain[n-1] = 0`, i.e. `(i+1) % n`. -/
def initChain (n : Nat) : List Nat :=
  (List.range n).map (fun i => (i + 1) % n)

/-- A queue of `n` slots right after `ProducerQueue::new`/`ConsumerQueue::new`
plus `init()` (tail and head stored as `INVALID_INDEX`): producer `current`
is 0, `overrun` invalid, consumer `current` is 0. -/
def initQState (n : Nat) : QState :=
  { tail := INVALID_INDEX
    head := INVALID_INDEX
    chainSh := initChain n
    pchain := initChain n
    phead := INVALID_INDEX
    current := 0
    overrun := INVALID_INDEX
    ccurrent := 0 }

/-- A queue state together with the message-slot payloads (one value per
slot; the shared-memory arena is zero-initialised). -/
structure QueueSys where
  q : QState
  msgs : List Nat
deriving DecidableEq, Repr

/-- The `N = 3` system of the specification's concrete scenarios:
`additional_messages = 0`, so `MIN_MSGS = 3` slots. -/
def initSys3 : QueueSys :=
  { q := initQState 3, msgs := [0, 0, 0] }

/-- Writing a value through the typed producer's `current_message()` view
(no scratch cache): the payload of the producer's `current` slot. -/
def write_message (v : Nat) (s : QueueSys) : QueueSys :=
  { s with msgs := s.msgs.set s.q.current v }

/-- "publish the value v with a force-push": write it into the current slot,
then `force_push`. -/
def pushF (v : Nat) (s : QueueSys) : ProduceForceResult × QueueSys :=
  let s := write_message v s
  let (r, q) := force_push s.q
  (r, { s with q := q })

/-- "publish the value v with a try-push": write it into the current slot,
then `try_push`. -/
def pushT (v : Nat) (s : QueueSys) : ProduceTryResult × QueueSys :=
  let s := write_message v s
  let (r, q) := try_push s.q
  (r, { s with q := q })

/-- `pop` on the system (payloads unchanged). -/
def popS (s : QueueSys) : ConsumeResult × QueueSys :=
  let (r, q) := pop s.q
  (r, { s with q := q })

/-- `ConsumerQueue::current_message` as seen through the typed consumer: the
payload of the consumer's `current` slot, `none` when the slot id is out of
range (`messages.get`). -/
def current_message (s : QueueSys) : Option Nat :=
  s.msgs.get? s.q.ccurrent

/-! ## Concrete scenarios (spec S1, S2, S3) -/

/-- The `N = 3` queue after force-pushing the values 1, 2, 3, 4 with no
intervening pops (scenario S2). -/
def s2_state : QueueSys :=
  (pushF 4 (pushF 3 (pushF 2 (pushF 1 initSys3).2).2).2).2

/-- The `N = 3` queue after one push of the value 7 (scenario S1; the first
push takes the same `enqueue_first_message` path for both push flavours). -/
def s1_state : QueueSys :=
  (pushF 7 initSys3).2

/-- Claim C1, counterexample: at `N = 3` after four force-pushes of 1, 2, 3, 4,
it is not the case that the next pop returns `SuccessMessagesDiscarded` with
current message 4 and the pop after that returns `NoNewMessage`: the first pop
delivers 3 (the oldest message still in the queue) and the second pop returns
`Success` (delivering 4). -/
theorem C1_counterexample :
    ¬ ((popS s2_state).1 = .SuccessMessagesDiscarded ∧
       current_message (popS s2_state).2 = some 4 ∧
       (popS (popS s2_state).2).1 = .NoNewMessage) := by
  decide

/-- Claim C1, amended: starting from a freshly initialized queue with `N = 3`
slots, after four force-pushes publishing 1, 2, 3, 4 with no intervening pops,
the next pop returns `SuccessMessagesDiscarded` and the consumer's current
message holds 3 (the oldest message not discarded by the producer); the pop
after that returns `Success` and the current message holds 4 (the freshest);
and the pop after that returns `NoNewMessage`. -/
theorem C1_amended :
    (popS s2_state).1 = .SuccessMessagesDiscarded ∧
    current_message (popS s2_state).2 = some 3 ∧
    (popS (popS s2_state).2).1 = .Success ∧
    current_message (popS (popS s2_state).2).2 = some 4 ∧
    (popS (popS (popS s2_state).2).2).1 = .NoNewMessage := by
  decide

/-- Claim C2, counterexample: at `N = 3` after one push of 7, the first pop
does not return `Success`: the consumed flag has never been set, so
`tail_fetch_or` returns a word with the flag clear and `pop` takes the
`SuccessMessagesDiscarded` branch (queue.rs line 507-511). -/
theorem C2_counterexample :
    ¬ ((popS s1_state).1 = .Success ∧
       current_message (popS s1_state).2 = some 7 ∧
       (popS (popS s1_state).2).1 = .NoNewMessage) := by
  decide

/-- Claim C2, amended: starting from a freshly initialized queue with `N = 3`
slots, after one push publishing 7, the first pop returns
`SuccessMessagesDiscarded` (not `Success`: no pop has set the consumed flag
yet, and a clear flag is reported as a producer tail move) and the consumer's
current message holds 7; a second pop returns `NoNewMessage`. -/
theorem C2_amended :
    (popS s1_state).1 = .SuccessMessagesDiscarded ∧
    current_message (popS s1_state).2 = some 7 ∧
    (popS (popS s1_state).2).1 = .NoNewMessage := by
  decide

/-- The `N = 3` queue after try-pushing the values 1, 2 (both succeed) and the
rejected try-pushes of 3 and 4 (scenario S3). -/
def s3_state : QueueSys :=
  (pushT 4 (pushT 3 (pushT 2 (pushT 1 initSys3).2).2).2).2

/-- Claim C4, counterexample: at `N = 3` the third try-push does not return
`Success`: with two unconsumed messages in the queue, `chain[current]` is
already the slot named by `tail`, so `try_push` reports `QueueFull` (a queue
of `N` slots holds at most `N - 1` unread messages, one slot being the
producer's write slot). -/
theorem C4_counterexample :
    ¬ ((pushT 3 (pushT 2 (pushT 1 initSys3).2).2).1 = .Success ∧
       (pushT 4 (pushT 3 (pushT 2 (pushT 1 initSys3).2).2).2).1 = .QueueFull ∧
       (popS s3_state).1 = .Success ∧
       current_message (popS s3_state).2 = some 1 ∧
       (pushT 4 (popS s3_state).2).1 = .Success) := by
  decide

/-- Claim C4, amended: starting from a freshly initialized queue with `N = 3`
slots, the try-pushes of 1 and 2 return `Success`; the try-pushes of 3 and 4
both return `QueueFull`; a pop then returns `SuccessMessagesDiscarded` (the
consumed flag was still clear) with current message 1; a try-push of 4
directly after that pop still returns `QueueFull` (the pop adopted the tail
without advancing it); a second pop returns `Success` with current message 2,
and after it the try-push of 4 returns `Success`. -/
theorem C4_amended :
    (pushT 1 initSys3).1 = .Success ∧
    (pushT 2 (pushT 1 initSys3).2).1 = .Success ∧
    (pushT 3 (pushT 2 (pushT 1 initSys3).2).2).1 = .QueueFull ∧
    (pushT 4 (pushT 3 (pushT 2 (pushT 1 initSys3).2).2).2).1 = .QueueFull ∧
    (popS s3_state).1 = .SuccessMessagesDiscarded ∧
    current_message (popS s3_state).2 = some 1 ∧
    (pushT 4 (popS s3_state).2).1 = .QueueFull ∧
    (popS (popS s3_state).2).1 = .Success ∧
    current_message (popS (popS s3_state).2).2 = some 2 ∧
    (pushT 4 (popS (popS s3_state).2).2).1 = .Success := by
  decide

/-- Claim C3: whenever `try_push` returns `QueueFull` the call has modified
nothing: the resulting state (shared `tail`, `head`, every `chain[i]`, the
producer's `current`, local head, `overrun` and local chain mirror, and the
consumer-local cursor) is exactly the state before the call.  Proved for
every state, hence in particular for every reachable producer state. -/
theorem C3_try_push_queue_full_no_mutation (s : QState)
    (h : (try_push s).1 = .QueueFull) : (try_push s).2 = s := by
  unfold try_push at h ⊢
  repeat' split at h <;> simp_all

/-- Claim C3, witness: a concrete state (the `N = 3` queue after two
successful try-pushes) on which `try_push` returns `QueueFull`, and the state
is unchanged. -/
theorem C3_try_push_queue_full_no_mutation_witness :
    (try_push (pushT 2 (pushT 1 initSys3).2).2.q).1 = .QueueFull ∧
    (try_push (pushT 2 (pushT 1 initSys3).2).2.q).2 =
      (pushT 2 (pushT 1 initSys3).2).2.q :=
  ⟨by decide, C3_try_push_queue_full_no_mutation _ (by decide)⟩

/-- Claim C9: on a freshly constructed consumer queue (`N = 3`) on which no
pop has ever returned a message, `current_message` does not return `none`:
the consumer cursor is initialized to slot 0 and `messages.get(0)` is always
`Some`, so a view of slot 0 is returned — even though a pop at this point
returns `NoMessage`, whose documentation in queue.rs states "current_message
will return None".  This theorem records the code's behaviour at the claim's
failing input. -/
theorem C9_current_message_of_fresh_consumer :
    current_message initSys3 = some 0 ∧
    (popS initSys3).1 = .NoMessage ∧
    current_message (popS initSys3).2 = some 0 := by
  decide

/-! ## Typed producer façade (channel.rs `Producer<T>`) -/

/-- A typed producer (`Producer<T>` in channel.rs): the queue producer state,
the payload slots, the optional wake-up descriptor (modelled by its counter
value: `EventFd::write(1)` adds 1) and the optional local scratch cache. -/
structure ProducerT where
  q : QState
  msgs : List Nat
  eventfd : Option Nat
  cache : Option Nat
deriving DecidableEq, Repr

/-- Writing through `Producer::current_message()`: the scratch cache when it
is enabled, otherwise the producer's `current` slot. -/
def producer_write_current (p : ProducerT) (v : Nat) : ProducerT :=
  match p.cache with
  | some _ => { p with cache := some v }
  | none => { p with msgs := p.msgs.set p.q.current v }

/-- `Producer::force_push` (channel.rs lines 146-158): with the cache enabled,
first copy it through `current_message()` (which, cache enabled, is the cache
itself); run the queue `force_push`; increment the wake-up descriptor by 1
only when the result is `Success`. -/
def producer_force_push (p : ProducerT) : ProduceForceResult × ProducerT :=
  let p :=
    match p.cache with
    | some c => producer_write_current p c
    | none => p
  let rq := force_push p.q
  let p := { p with q := rq.2 }
  if rq.1 = .Success then
    (rq.1, { p with eventfd := p.eventfd.map (· + 1) })
  else
    (rq.1, p)

/-- Publishing one value through the typed producer: write it via
`current_message()`, then `force_push`. -/
def producer_publish (v : Nat) (p : ProducerT) : ProduceForceResult × ProducerT :=
  producer_force_push (producer_write_current p v)

/-- A fresh `N = 3` typed producer with a wake-up descriptor (counter 0) and
no scratch cache, after two published values (counter is 2). -/
def p7_state : ProducerT :=
  (producer_publish 2 (producer_publish 1
    { q := initQState 3, msgs := [0, 0, 0], eventfd := some 0, cache := none }).2).2

/-- Claim C7, counterexample: a typed producer with a wake-up descriptor whose
third force-push returns `SuccessMessageDiscarded` and does not increment the
descriptor: channel.rs only increments on `Success`. -/
theorem C7_counterexample :
    p7_state.eventfd = some 2 ∧
    (producer_publish 3 p7_state).1 = .SuccessMessageDiscarded ∧
    ¬ (producer_publish 3 p7_state).2.eventfd = some 3 := by
  decide

/-- Claim C7, amended: for every typed producer with a wake-up descriptor, a
`force_push` returning `Success` increments the descriptor by 1, and a
`force_push` returning anything else (`SuccessMessageDiscarded` or
`QueueError`) leaves it unchanged. -/
theorem C7_amended (p : ProducerT) (c : Nat) (h : p.eventfd = some c) :
    ((producer_force_push p).1 = .Success →
      (producer_force_push p).2.eventfd = some (c + 1)) ∧
    ((producer_force_push p).1 ≠ .Success →
      (producer_force_push p).2.eventfd = some c) := by
  unfold producer_force_push
  cases hc : p.cache <;>
    simp only [producer_write_current, hc] <;>
    split <;> simp_all

/-- Claim C7, witness: on the fresh typed producer above, the first
force-push returns `Success` and the descriptor becomes 1. -/
theorem C7_amended_witness :
    ((producer_force_push (producer_write_current
        { q := initQState 3, msgs := [0, 0, 0], eventfd := some 0, cache := none } 1)).1
      = .Success →
     (producer_force_push (producer_write_current
        { q := initQState 3, msgs := [0, 0, 0], eventfd := some 0, cache := none } 1)).2.eventfd
      = some 1) ∧
    (producer_force_push (producer_write_current
        { q := initQState 3, msgs := [0, 0, 0], eventfd := some 0, cache := none } 1)).1
      = .Success :=
  ⟨(C7_amended _ 0 (by decide)).1, by decide⟩

/-! ## Channel vector (channel.rs `ChannelVector`) -/

/-- One channel slot as the vector holds it: the queue's message size, the
optional wake-up descriptor and the info blob.  (The queue state itself is
carried separately and is irrelevant to the vector-level claims.) -/
structure ChannelModel where
  message_size : Nat
  eventfd : Option Nat
  info : List Nat
deriving DecidableEq, Repr

/-- `ChannelVector`: two ordered lists of single-take channel slots, the
vector info and the arena (shared-memory) descriptor. -/
structure ChannelVectorM where
  producers : List (Option ChannelModel)
  consumers : List (Option ChannelModel)
  info : List Nat
  shmfd : Nat
deriving DecidableEq, Repr

/-- `ChannelVector::collect_fds` (channel.rs lines 383-407): the arena
descriptor, then — mirroring the two `filter_map(..).flatten()` passes of the
source in their order — the consumers' wake-up descriptors, then the
producers' wake-up descriptors.  This is the list the initiator hands to the
request send (socket.rs `client_connect`). -/
def collect_fds (cv : ChannelVectorM) : List Nat :=
  let fds := [cv.shmfd]
  let consumers := (cv.consumers.filterMap (fun e => e.map (fun c => c.eventfd))).filterMap id
  let fds := fds ++ consumers
  let producers := (cv.producers.filterMap (fun e => e.map (fun c => c.eventfd))).filterMap id
  fds ++ producers

/-- The wake-up descriptors of the present channels of one list, in list
order (a straightforward recursion, used to state the fd-order claims). -/
def wakeup_fds : List (Option ChannelModel) → List Nat
  | [] => []
  | none :: rest => wakeup_fds rest
  | some c :: rest =>
    match c.eventfd with
    | some fd => fd :: wakeup_fds rest
    | none => wakeup_fds rest

/-- The descriptor order the specification claims ("arena, then producer
wake-ups in producer order, then consumer wake-ups in consumer order"),
written from the spec's words for comparison with `collect_fds`. -/
def claimed_fd_order (cv : ChannelVectorM) : List Nat :=
  cv.shmfd :: (wakeup_fds cv.producers ++ wakeup_fds cv.consumers)

/-- Claim C8, counterexample: a vector with one producer channel (wake-up
descriptor 10) and one consumer channel (wake-up descriptor 20) over arena
descriptor 3: the initiator sends [3, 20, 10] — arena, consumer wake-ups,
producer wake-ups — not the claimed [3, 10, 20]. -/
theorem C8_counterexample :
    collect_fds
      { producers := [some { message_size := 8, eventfd := some 10, info := [] }]
        consumers := [some { message_size := 8, eventfd := some 20, info := [] }]
        info := [], shmfd := 3 } = [3, 20, 10] ∧
    claimed_fd_order
      { producers := [some { message_size := 8, eventfd := some 10, info := [] }]
        consumers := [some { message_size := 8, eventfd := some 20, info := [] }]
        info := [], shmfd := 3 } = [3, 10, 20] ∧
    ([3, 20, 10] : List Nat) ≠ [3, 10, 20] := by
  decide

/-- Lists of present channels: the two `filter_map`/`flatten` passes of
`collect_fds` compute exactly the in-order wake-up descriptors. -/
theorem filterMap_eventfd_eq_wakeup_fds (l : List (Option ChannelModel)) :
    (l.filterMap (fun e => e.map (fun c => c.eventfd))).filterMap id = wakeup_fds l := by
  induction l with
  | nil => rfl
  | cons hd tl ih =>
    cases hd with
    | none => simpa [wakeup_fds] using ih
    | some c =>
      cases hc : c.eventfd <;> simp [wakeup_fds, hc, ih]

/-- Claim C8, amended: the file-descriptor list the initiator sends is the
arena (shared-memory) descriptor first, then one wake-up descriptor for each
consumer channel that has one, in consumer-list order, then one wake-up
descriptor for each producer channel that has one, in producer-list order. -/
theorem C8_amended (cv : ChannelVectorM) :
    collect_fds cv = cv.shmfd :: (wakeup_fds cv.consumers ++ wakeup_fds cv.producers) := by
  simp [collect_fds, filterMap_eventfd_eq_wakeup_fds]

/-- `Producer::try_from` (channel.rs lines 126-136), with `size_of::<T>()`
passed explicitly: `None` when the type is larger than the channel's message
size, otherwise the producer built from the channel. -/
def producer_try_from (szT : Nat) (ch : ChannelModel) : Option ChannelModel :=
  if ch.message_size < szT then none else some ch

/-- `ChannelVector::take_producer` (channel.rs lines 374-377):
`self.producers.get_mut(index)?.take()?` empties the slot whenever it held a
channel, and only then the size check of `Producer::try_from` runs. -/
def take_producer (cv : ChannelVectorM) (szT idx : Nat) :
    Option ChannelModel × ChannelVectorM :=
  match cv.producers[idx]? with
  | none => (none, cv)
  | some none => (none, cv)
  | some (some ch) =>
    (producer_try_from szT ch, { cv with producers := cv.producers.set idx none })

/-- Claim C10: if slot `idx` holds a not-yet-taken producer channel and the
requested type's byte size exceeds the channel's message size, then
`take_producer` returns `none` and nevertheless consumes the channel: every
subsequent `take_producer` at `idx`, with any type size, also returns `none`. -/
theorem C10_take_producer_oversized_consumes (cv : ChannelVectorM)
    (idx szT : Nat) (ch : ChannelModel)
    (hget : cv.producers[idx]? = some (some ch))
    (hsz : ch.message_size < szT) :
    (take_producer cv szT idx).1 = none ∧
    ∀ szT2, (take_producer (take_producer cv szT idx).2 szT2 idx).1 = none := by
  have hlt : idx < cv.producers.length := by
    by_contra hge
    rw [List.getElem?_eq_none (Nat.le_of_not_lt hge)] at hget
    exact Option.noConfusion hget
  constructor
  · simp [take_producer, hget, producer_try_from, hsz]
  · intro szT2
    have hset : ((cv.producers.set idx none)[idx]?) = some none :=
      List.getElem?_set_self (by simpa using hlt)
    simp [take_producer, hget, hset]

/-- Claim C10, witness: a vector with a single producer channel of message
size 4; taking it with a type of size 8 returns `none`, and a subsequent take
even with size 0 also returns `none`. -/
theorem C10_take_producer_oversized_consumes_witness :
    ({ producers := [some { message_size := 4, eventfd := none, info := [] }]
       consumers := [], info := [], shmfd := 0 } : ChannelVectorM).producers[0]?
      = some (some { message_size := 4, eventfd := none, info := [] }) ∧
    (4 : Nat) < 8 ∧
    (take_producer
      { producers := [some { message_size := 4, eventfd := none, info := [] }]
        consumers := [], info := [], shmfd := 0 } 8 0).1 = none ∧
    (take_producer
      (take_producer
        { producers := [some { message_size := 4, eventfd := none, info := [] }]
          consumers := [], info := [], shmfd := 0 } 8 0).2 0 0).1 = none := by
  refine ⟨by decide, by decide, ?_⟩
  have h := C10_take_producer_oversized_consumes
    { producers := [some { message_size := 4, eventfd := none, info := [] }]
      consumers := [], info := [], shmfd := 0 } 0 8
    { message_size := 4, eventfd := none, info := [] } (by decide) (by decide)
  exact ⟨h.1, h.2 0⟩

/-! ## The chain invariant (claim C5) -/

/-- Following `chain[i]` starting at `cur`, recording the visited slots, for
at most `fuel` steps, stopping at the sentinel. -/
def walkFrom (chain : List Nat) : Nat → Nat → List Nat
  | 0, _ => []
  | fuel + 1, cur =>
    if cur = INVALID_INDEX then []
    else cur :: walkFrom chain fuel (chain.getD cur INVALID_INDEX)

/-- The chain-structure invariant that actually holds in every reachable
state: the producer's mirror equals the shared chain; before the first
publish the chain is a cycle visiting every slot exactly once from any start;
afterwards the walk from the producer's `current` slot is duplicate-free,
ends at the head slot (whose chain cell is the sentinel), and visits every
slot exactly once — except that while the producer holds an overrun slot,
that one slot is outside the walk (its chain cell is stale until the producer
re-stitches it). -/
def ChainInv (s : QState) : Prop :=
  let n := s.chainSh.length
  s.pchain = s.chainSh ∧
  (if s.phead = INVALID_INDEX then
    ∀ start, start < n →
      ((walkFrom s.chainSh n start).Nodup ∧ (walkFrom s.chainSh n start).length = n ∧
        ∀ i, i < n → i ∈ walkFrom s.chainSh n start)
  else
    (walkFrom s.chainSh (n + 1) s.current).Nodup ∧
    (walkFrom s.chainSh (n + 1) s.current).getLast? = some s.phead ∧
    s.chainSh.getD s.phead 0 = INVALID_INDEX ∧
    (if s.overrun = INVALID_INDEX then
      (walkFrom s.chainSh (n + 1) s.current).length = n ∧
        ∀ i, i < n → i ∈ walkFrom s.chainSh (n + 1) s.current
     else
      (walkFrom s.chainSh (n + 1) s.current).length = n - 1 ∧
        s.overrun ∉ walkFrom s.chainSh (n + 1) s.current ∧
        ∀ i, i < n → i ≠ s.overrun → i ∈ walkFrom s.chainSh (n + 1) s.current))

instance (s : QState) : Decidable (ChainInv s) := by
  unfold ChainInv; infer_instance

/-- One whole-operation step of either endpoint: the states after
`force_push`, `try_push`, `pop` and `flush`. -/
def step_states (s : QState) : List QState :=
  [(force_push s).2, (try_push s).2, (pop s).2, (flush s).2]

/-- Breadth-first closure of a state list under `step_states`. -/
def explore : Nat → List QState → List QState
  | 0, acc => acc
  | n + 1, acc =>
    let fresh := ((acc.map step_states).flatten).filter (fun s => ¬ acc.contains s)
    if fresh.isEmpty then acc else explore n (acc ++ fresh.dedup)

/-- Every state of the `N = 3` queue reachable by whole operations. -/
def R3 : List QState := explore 100 [initQState 3]

/-- Reachability for the `N = 3` queue: the freshly initialized state, closed
under `force_push`, `try_push`, `pop` and `flush`. -/
inductive Reach3 : QState → Prop where
  | init : Reach3 (initQState 3)
  | step {s t : QState} : Reach3 s → t ∈ step_states s → Reach3 t

theorem R3_init_mem : initQState 3 ∈ R3 := by decide!

theorem R3_closed : ∀ s ∈ R3, ∀ t ∈ step_states s, t ∈ R3 := by decide!

theorem R3_inv : ∀ s ∈ R3, ChainInv s := by decide!

theorem Reach3_mem_R3 : ∀ s, Reach3 s → s ∈ R3 := by
  intro s h
  induction h with
  | init => exact R3_init_mem
  | step _ ht ih => exact R3_closed _ ih _ ht

/-- Claim C5, counterexample: at `N = 3`, already after the very first
force-push the walk from slot 0 visits only slot 0 (the chain cell of the
freshly published head slot is the sentinel), so following `chain[i]` from an
arbitrary slot does not visit every slot exactly once. -/
theorem C5_counterexample :
    walkFrom ((force_push (initQState 3)).2).chainSh 3 0 = [0] ∧
    (1 : Nat) ∉ walkFrom ((force_push (initQState 3)).2).chainSh 3 0 := by
  decide

/-- Reading the freshly initialized chain: `chain[i] = (i+1) % n`. -/
theorem initChain_getD (n i : Nat) (h : i < n) :
    (initChain n).getD i INVALID_INDEX = (i + 1) % n := by
  simp [initChain, List.getD_eq_getElem?_getD, List.getElem?_range h]

/-- Walking the freshly initialized chain takes successive slots modulo `n`. -/
theorem walkFrom_initChain (n : Nat) (hn : 0 < n) (hsz : n < 2 ^ 32) :
    ∀ (f s : Nat), s < n →
      walkFrom (initChain n) f s = (List.range f).map (fun j => (s + j) % n) := by
  intro f
  induction f with
  | zero => intro s _; rfl
  | succ f ih =>
    intro s hs
    have hsinv : s ≠ INVALID_INDEX := by
      simp only [INVALID_INDEX]; omega
    rw [walkFrom, if_neg hsinv, initChain_getD n s hs, ih ((s + 1) % n) (Nat.mod_lt _ hn),
      List.range_succ_eq_map, List.map_cons, List.map_map]
    refine congrArg₂ _ ?_ ?_
    · rw [Nat.add_zero, Nat.mod_eq_of_lt hs]
    · refine List.map_congr_left fun j _ => ?_
      simp only [Function.comp]
      rw [Nat.mod_add_mod]
      exact congrArg (· % n) (by omega)

/-- After construction, `n` steps along the chain from any slot visit every
slot exactly once. -/
theorem initChain_walk_props (n : Nat) (hn : 0 < n) (hsz : n < 2 ^ 32) (s : Nat) (hs : s < n) :
    (walkFrom (initChain n) n s).Nodup ∧ (walkFrom (initChain n) n s).length = n ∧
    ∀ i, i < n → i ∈ walkFrom (initChain n) n s := by
  rw [walkFrom_initChain n hn hsz n s hs]
  refine ⟨?_, by simp, ?_⟩
  · refine List.Nodup.map_on ?_ (List.nodup_range n)
    intro x hx y hy hxy
    have h1 : x ≡ y [MOD n] := Nat.ModEq.add_left_cancel' s hxy
    rw [List.mem_range] at hx hy
    rwa [Nat.ModEq, Nat.mod_eq_of_lt hx, Nat.mod_eq_of_lt hy] at h1
  · intro i hi
    refine List.mem_map.mpr ⟨(n + i - s) % n, List.mem_range.mpr (Nat.mod_lt _ hn), ?_⟩
    rw [Nat.add_mod_mod]
    have hni : s + (n + i - s) = n + i := by omega
    rw [hni, Nat.add_mod_left, Nat.mod_eq_of_lt hi]

/-- Claim C5, amended.  (1) After queue construction (any slot count
`0 < n < 2^32`), following `chain[i]` from any slot visits every slot exactly
once.  (2) After a producer operation the permutation property no longer
holds literally — the head slot's chain cell is the sentinel — but in every
state of the `N = 3` queue reachable by any sequence of `force_push`,
`try_push`, `pop` and `flush` operations, `ChainInv` holds: the producer's
mirror equals the shared chain, and following the chain from the producer's
`current` slot visits pairwise-distinct slots ending at the head slot, and
visits every slot exactly once — except that, while the producer holds an
overrun slot, exactly that slot is skipped. -/
theorem C5_amended :
    (∀ n, 0 < n → n < 2 ^ 32 → ∀ start, start < n →
      ((walkFrom (initQState n).chainSh n start).Nodup ∧
       (walkFrom (initQState n).chainSh n start).length = n ∧
       ∀ i, i < n → i ∈ walkFrom (initQState n).chainSh n start)) ∧
    (∀ s, Reach3 s → ChainInv s) := by
  constructor
  · intro n hn hsz start hstart
    exact initChain_walk_props n hn hsz start hstart
  · intro s h
    exact R3_inv s (Reach3_mem_R3 s h)

/-- Claim C5, witness: the construction property at `n = 3`, `start = 1`, and
the reachable-state invariant at the state after one `force_push`. -/
theorem C5_amended_witness :
    ((walkFrom (initQState 3).chainSh 3 1).Nodup ∧
     (walkFrom (initQState 3).chainSh 3 1).length = 3 ∧
     ∀ i, i < 3 → i ∈ walkFrom (initQState 3).chainSh 3 1) ∧
    ChainInv (force_push (initQState 3)).2 :=
  ⟨C5_amended.1 3 (by decide) (by decide) 1 (by decide),
   C5_amended.2 _ (Reach3.step Reach3.init (by decide))⟩

/-! ## Request codec (protocol.rs, header.rs)

Byte strings are `List Nat` with each element one byte.  All multi-byte
fields are written in the host byte order of the supported targets (little
endian); `as u32` casts truncate via `% 2 ^ 32`.  The host cache-line size is
a parameter `cl` (read from the cache probe on both sides of an intra-host
round trip).  The `usize` offset arithmetic of the encoder and parser is
modelled on unbounded `Nat`; overflow of 64-bit offsets is out of scope.
All distinct error returns (`HeaderError`, `RequestPointerError`) are
collapsed to `none`. -/

/-- `ChannelParam` (the vector configuration entry of one channel):
`additional_messages`, `message_size` (a `NonZeroUsize`), the info blob and
the wake-up flag. -/
structure ChannelParam where
  additional_messages : Nat
  message_size : Nat
  info : List Nat
  eventfd : Bool
deriving DecidableEq, Repr

/-- `VectorParam`: the two channel lists and the vector info blob. -/
structure VectorParam where
  consumers : List ChannelParam
  producers : List ChannelParam
  info : List Nat
deriving DecidableEq, Repr

/-- A 16-bit value as two little-endian bytes. -/
def u16le (n : Nat) : List Nat := [n % 256, n / 256 % 256]

/-- A 32-bit value (`as u32` truncates) as four little-endian bytes. -/
def u32le (n : Nat) : List Nat :=
  [n % 256, n / 256 % 256, n / 65536 % 256, n / 16777216 % 256]

/-- One byte of the message (reads beyond the end cannot occur behind the
length guards; they default to 0). -/
def getByte (req : List Nat) (i : Nat) : Nat := req.getD i 0

/-- An unaligned little-endian 16-bit load. -/
def getU16 (req : List Nat) (off : Nat) : Nat :=
  getByte req off + 256 * getByte req (off + 1)

/-- An unaligned little-endian 32-bit load (`ptr.read_unaligned`). -/
def getU32 (req : List Nat) (off : Nat) : Nat :=
  getByte req off + 256 * getByte req (off + 1) + 65536 * getByte req (off + 2) +
    16777216 * getByte req (off + 3)

/-- `request_read::<u32>` (protocol.rs): bounds-checked unaligned load. -/
def request_read_u32 (req : List Nat) (off : Nat) : Option Nat :=
  if off + 4 ≤ req.length then some (getU32 req off) else none

/-- `write_header` (header.rs): magic `0x1f0c`, version 1, cache-line size,
atomic index width 4, each 16-bit. -/
def write_header (cl : Nat) : List Nat :=
  u16le 0x1f0c ++ u16le 1 ++ u16le cl ++ u16le 4

/-- `verify_header` (header.rs): length and the four field comparisons
against this host's values (`cl` must fit `u16`, as `try_into().unwrap()`
demands). -/
def verify_header (cl : Nat) (buf : List Nat) : Bool :=
  decide (8 ≤ buf.length) && (getU16 buf 0 == 0x1f0c) && (getU16 buf 2 == 1) &&
    (getU16 buf 4 == cl) && (getU16 buf 6 == 4)

/-- `struct ChannelEntry` (protocol.rs): the four `u32` fields of one packed
table record. -/
structure ChannelEntry where
  additional_messages : Nat
  message_size : Nat
  eventfd : Nat
  info_size : Nat
deriving DecidableEq, Repr

/-- `ChannelEntry::from_param` followed by the `repr(C)` byte layout: the
four fields as `u32` little-endian, in declaration order. -/
def ChannelEntry_bytes (c : ChannelParam) : List Nat :=
  u32le c.additional_messages ++ u32le c.message_size ++
    u32le (if c.eventfd then 1 else 0) ++ u32le c.info.length

/-- `request_read::<ChannelEntry>`: one bounds check for the 16 bytes, then
four unaligned `u32` loads. -/
def read_entry (req : List Nat) (off : Nat) : Option ChannelEntry :=
  if off + 16 ≤ req.length then
    some ⟨getU32 req off, getU32 req (off + 4), getU32 req (off + 8), getU32 req (off + 12)⟩
  else none

/-- `request[a..b]` as a list (the callers establish `a ≤ b ≤ len`). -/
def byte_slice (req : List Nat) (a b : Nat) : List Nat := (req.drop a).take (b - a)

/-- `ChannelEntry::to_param` (protocol.rs lines 33-63): bounds-check the info
blob, reject `message_size == 0`, copy the info bytes. -/
def to_param (req : List Nat) (e : ChannelEntry) (info_offset : Nat) : Option ChannelParam :=
  if info_offset + e.info_size > req.length then none
  else if e.message_size = 0 then none
  else some
    { additional_messages := e.additional_messages
      message_size := e.message_size
      info := byte_slice req info_offset (info_offset + e.info_size)
      eventfd := e.eventfd ≠ 0 }

/-- One parse loop of `parse_request`: read `count` channel entries starting
at byte `off`, consuming info blobs from `info_offset` on; returns the
parameters and the final info offset. -/
def parse_channels (req : List Nat) : Nat → Nat → Nat → Option (List ChannelParam × Nat)
  | 0, _, info_offset => some ([], info_offset)
  | count + 1, off, info_offset =>
    match read_entry req off with
    | none => none
    | some e =>
      match to_param req e info_offset with
      | none => none
      | some p =>
        match parse_channels req count (off + 16) (info_offset + p.info.length) with
        | none => none
        | some (ps, io) => some (p :: ps, io)

/-- `create_request_message` (protocol.rs lines 255-318).  The source writes
into a zero vector of the exact `Layout::calc` size at consecutive offsets:
header at 0, vector-info length at 8, producer count at 12, consumer count
at 16, the producer entries from 20, the consumer entries after them, then
the vector info bytes, then the channel info blobs in producer-then-consumer
order; the segments are written here in that layout order. -/
def create_request_message (cl : Nat) (v : VectorParam) : List Nat :=
  write_header cl ++ u32le v.info.length ++ u32le v.producers.length ++
    u32le v.consumers.length ++ (v.producers.map ChannelEntry_bytes).flatten ++
    (v.consumers.map ChannelEntry_bytes).flatten ++ v.info ++
    (v.producers.map ChannelParam.info).flatten ++
    (v.consumers.map ChannelParam.info).flatten

/-- `parse_request` (protocol.rs lines 163-253).  Note the orientation swap:
the count at offset 12 — written from the producer list — is read as
`num_consumers`, the count at 16 as `num_producers`, and the first entry run
is parsed into the consumer list. -/
def parse_request (cl : Nat) (req : List Nat) : Option VectorParam :=
  if 8 ≤ req.length then
    if verify_header cl (req.take 8) then
      match request_read_u32 req 8, request_read_u32 req 12, request_read_u32 req 16 with
      | some vector_info_size, some num_consumers, some num_producers =>
        let vector_info_offset := 20 + (num_consumers + num_producers) * 16
        let channel_info_offset := vector_info_offset + vector_info_size
        if channel_info_offset ≤ req.length then
          let info := byte_slice req vector_info_offset channel_info_offset
          match parse_channels req num_consumers 20 channel_info_offset with
          | none => none
          | some (consumers, cio2) =>
            match parse_channels req num_producers (20 + num_consumers * 16) cio2 with
            | none => none
            | some (producers, cio3) =>
              if cio3 ≤ req.length then
                some { consumers := consumers, producers := producers, info := info }
              else none
        else none
      | _, _, _ => none
    else none
  else none

/-- A channel configuration the encoder accepts and whose numeric fields fit
the declared 32-bit wire widths. -/
def ChannelParam.Valid (c : ChannelParam) : Prop :=
  0 < c.message_size ∧ c.message_size < 2 ^ 32 ∧ c.additional_messages < 2 ^ 32 ∧
    c.info.length < 2 ^ 32

/-- A valid vector configuration: every channel valid, all lengths fit the
32-bit wire fields. -/
def VectorParam.Valid (v : VectorParam) : Prop :=
  v.info.length < 2 ^ 32 ∧ v.producers.length < 2 ^ 32 ∧ v.consumers.length < 2 ^ 32 ∧
    (∀ c ∈ v.producers, c.Valid) ∧ (∀ c ∈ v.consumers, c.Valid)

/-- Reading one byte behind a prefix. -/
theorem getByte_append (pre l : List Nat) (i : Nat) :
    getByte (pre ++ l) (pre.length + i) = getByte l i := by
  simp [getByte, List.getD_eq_getElem?_getD,
    List.getElem?_append_right (Nat.le_add_right pre.length i)]

/-- Reading a 32-bit word behind a prefix. -/
theorem getU32_append (pre l : List Nat) (i : Nat) :
    getU32 (pre ++ l) (pre.length + i) = getU32 l i := by
  unfold getU32
  rw [getByte_append,
    show pre.length + i + 1 = pre.length + (i + 1) by omega, getByte_append,
    show pre.length + i + 2 = pre.length + (i + 2) by omega, getByte_append,
    show pre.length + i + 3 = pre.length + (i + 3) by omega, getByte_append]

/-- A 32-bit round trip: reading back four little-endian bytes. -/
theorem getU32_u32le (n : Nat) (rest : List Nat) :
    getU32 (u32le n ++ rest) 0 = n % 2 ^ 32 := by
  simp [getU32, u32le, getByte]
  omega

/-- Skipping one leading 32-bit field. -/
theorem getU32_skip4 (w : Nat) (l : List Nat) (i : Nat) :
    getU32 (u32le w ++ l) (4 + i) = getU32 l i := by
  rw [show (4 : Nat) + i = (u32le w).length + i by simp [u32le], getU32_append]

/-- The bounds-checked read of a 32-bit field sitting right behind a prefix. -/
theorem request_read_u32_at (pre : List Nat) (n : Nat) (rest : List Nat) :
    request_read_u32 (pre ++ (u32le n ++ rest)) pre.length = some (n % 2 ^ 32) := by
  unfold request_read_u32
  have hlen : (pre ++ (u32le n ++ rest)).length = pre.length + (4 + rest.length) := by
    simp [u32le]; omega
  rw [if_pos (by omega), show pre.length = pre.length + 0 by omega, getU32_append,
    getU32_u32le]

/-- Slicing out a segment sitting right behind a prefix. -/
theorem byte_slice_append (pre l suf : List Nat) :
    byte_slice (pre ++ (l ++ suf)) pre.length (pre.length + l.length) = l := by
  unfold byte_slice
  rw [show pre.length + l.length - pre.length = l.length by omega,
    List.drop_left' rfl, List.take_left]

/-- The packed entry table takes 16 bytes per channel. -/
theorem entries_flatten_length (ps : List ChannelParam) :
    ((ps.map ChannelEntry_bytes).flatten).length = 16 * ps.length := by
  induction ps with
  | nil => rfl
  | cons p t ih =>
    simp only [List.map_cons, List.flatten_cons, List.length_append, ih,
      List.length_cons]
    simp [ChannelEntry_bytes, u32le]
    omega

/-- One channel entry is 16 bytes. -/
theorem ChannelEntry_bytes_length (p : ChannelParam) : (ChannelEntry_bytes p).length = 16 := by
  simp [ChannelEntry_bytes, u32le]

/-- Variant of `entries_flatten_length` in the summed form `simp` produces. -/
theorem entries_sum_length (ps : List ChannelParam) :
    (ps.map (List.length ∘ ChannelEntry_bytes)).sum = 16 * ps.length := by
  induction ps with
  | nil => rfl
  | cons p t ih =>
    simp [ih, ChannelEntry_bytes, u16le, u32le]
    omega

/-- Reading the entry of a valid channel parameter sitting right behind a
prefix gives back its four fields. -/
theorem read_entry_at (pre : List Nat) (p : ChannelParam) (rest : List Nat) (hp : p.Valid) :
    read_entry (pre ++ (ChannelEntry_bytes p ++ rest)) pre.length =
      some ⟨p.additional_messages, p.message_size,
        if p.eventfd then 1 else 0, p.info.length⟩ := by
  obtain ⟨h1, h2, h3, h4⟩ := hp
  unfold read_entry
  have hlen : (pre ++ (ChannelEntry_bytes p ++ rest)).length =
      pre.length + (16 + rest.length) := by
    simp [ChannelEntry_bytes, u32le]; omega
  rw [if_pos (by omega)]
  simp only [ChannelEntry_bytes, List.append_assoc, Option.some.injEq, ChannelEntry.mk.injEq]
  refine ⟨?_, ?_, ?_, ?_⟩
  · rw [show pre.length = pre.length + 0 by omega, getU32_append, getU32_u32le,
      Nat.mod_eq_of_lt h3]
  · rw [getU32_append, show (4 : Nat) = 4 + 0 by omega, getU32_skip4, getU32_u32le,
      Nat.mod_eq_of_lt h2]
  · rw [getU32_append, show (8 : Nat) = 4 + 4 by omega, getU32_skip4,
      show (4 : Nat) = 4 + 0 by omega, getU32_skip4, getU32_u32le]
    cases p.eventfd <;> simp
  · rw [getU32_append, show (12 : Nat) = 4 + 8 by omega, getU32_skip4,
      show (8 : Nat) = 4 + 4 by omega, getU32_skip4,
      show (4 : Nat) = 4 + 0 by omega, getU32_skip4, getU32_u32le,
      Nat.mod_eq_of_lt h4]

/-- Converting the entry of a valid parameter back, with its info blob
sitting right behind a prefix, recovers the parameter. -/
theorem to_param_at (A : List Nat) (p : ChannelParam) (B : List Nat) (hp : p.Valid) :
    to_param (A ++ (p.info ++ B))
      ⟨p.additional_messages, p.message_size, if p.eventfd then 1 else 0, p.info.length⟩
      A.length = some p := by
  obtain ⟨h1, _, _, _⟩ := hp
  unfold to_param
  dsimp only
  have hlen : (A ++ (p.info ++ B)).length = A.length + p.info.length + B.length := by
    simp; omega
  rw [if_neg (by omega), if_neg (by omega), byte_slice_append]
  cases p with
  | mk am ms info ev => cases ev <;> simp

/-- The parse loop, run over the encoding of a list of valid channel
parameters: the entry table sits right behind `pre`, the info blobs behind
an arbitrary `mid` segment; the loop returns exactly the encoded parameters
and the info cursor lands right behind their blobs. -/
theorem parse_channels_spec (ps : List ChannelParam) :
    ∀ (pre mid suf : List Nat) (off io : Nat),
      (∀ c ∈ ps, c.Valid) →
      off = pre.length →
      io = pre.length + 16 * ps.length + mid.length →
      parse_channels
        (pre ++ ((ps.map ChannelEntry_bytes).flatten ++
          (mid ++ ((ps.map ChannelParam.info).flatten ++ suf))))
        ps.length off io
      = some (ps, io + ((ps.map ChannelParam.info).flatten).length) := by
  induction ps with
  | nil =>
    intro pre mid suf off io _ hoff hio
    simp [parse_channels]
  | cons p t ih =>
    intro pre mid suf off io hval hoff hio
    have hpv : p.Valid := hval p (by simp)
    have htv : ∀ c ∈ t, c.Valid := fun c hc => hval c (by simp [hc])
    subst hoff
    subst hio
    simp only [List.map_cons, List.flatten_cons, List.length_cons, List.append_assoc,
      parse_channels]
    rw [read_entry_at pre p _ hpv]
    dsimp only
    have h2 := to_param_at
      (pre ++ (ChannelEntry_bytes p ++ ((t.map ChannelEntry_bytes).flatten ++ mid))) p
      ((t.map ChannelParam.info).flatten ++ suf) hpv
    simp only [List.append_assoc, List.length_append, ChannelEntry_bytes_length,
      entries_flatten_length] at h2
    rw [show pre.length + 16 * (t.length + 1) + mid.length
          = pre.length + (16 + (16 * t.length + mid.length)) by omega] at *
    rw [h2]
    dsimp only
    have h3 := ih (pre ++ ChannelEntry_bytes p) (mid ++ p.info) suf
      (pre.length + 16)
      (pre.length + (16 + (16 * t.length + mid.length)) + p.info.length)
      htv
      (by simp [ChannelEntry_bytes_length])
      (by simp [ChannelEntry_bytes_length]; omega)
    simp only [List.append_assoc, List.length_append] at h3
    rw [h3]
    simp only [List.length_append, Option.some.injEq, Prod.mk.injEq, true_and]
    omega

/-- The encoded header is 8 bytes. -/
theorem write_header_length (cl : Nat) : (write_header cl).length = 8 := by
  simp [write_header, u16le]

/-- On the host that wrote it, the header verifies. -/
theorem verify_write_header (cl : Nat) (hcl : cl < 2 ^ 16) :
    verify_header cl (write_header cl) = true := by
  simp [verify_header, write_header, u16le, getU16, getByte]
  omega

/-- A vector configuration with one producer channel and no consumer
channels, used to exhibit the orientation swap of the codec. -/
def v6swap : VectorParam :=
  { consumers := []
    producers := [{ additional_messages := 0, message_size := 8, info := [], eventfd := false }]
    info := [] }

/-- Claim C6, counterexample: parsing the encoding of a valid configuration
with one producer and no consumers yields one CONSUMER and no producers —
`parse_request` reads the count written from the producer list as
`num_consumers` and parses the first entry run into the consumer list — so
`parse(encode(config))` is not `config`. -/
theorem C6_counterexample :
    parse_request 64 (create_request_message 64 v6swap) =
      some { consumers := v6swap.producers, producers := [], info := [] } ∧
    parse_request 64 (create_request_message 64 v6swap) ≠ some v6swap := by
  decide

/-- Claim C6, amended: for every valid vector configuration and host
cache-line size, parsing the encoded byte message yields the configuration
with the producer and consumer lists exchanged (the parser adopts the
acceptor's orientation): the parsed consumer list is the encoder's producer
list and vice versa, each channel's `additional_messages`, `message_size`,
eventfd flag and info blob preserved in order, and the vector info preserved
(the declared 32-bit field widths are respected because the configuration is
valid). -/
theorem C6_amended (cl : Nat) (hcl : cl < 2 ^ 16) (v : VectorParam) (hv : v.Valid) :
    parse_request cl (create_request_message cl v) =
      some { consumers := v.producers, producers := v.consumers, info := v.info } := by
  obtain ⟨hvi, hP, hC, hpv, hcv⟩ := hv
  unfold parse_request create_request_message
  simp only [List.append_assoc]
  rw [if_pos (by simp [write_header, u16le])]
  rw [List.take_left' (write_header_length cl), verify_write_header cl hcl, if_pos rfl]
  have r8 := request_read_u32_at (write_header cl) v.info.length
    (u32le v.producers.length ++ (u32le v.consumers.length ++
      ((v.producers.map ChannelEntry_bytes).flatten ++
        ((v.consumers.map ChannelEntry_bytes).flatten ++ (v.info ++
          ((v.producers.map ChannelParam.info).flatten ++
            (v.consumers.map ChannelParam.info).flatten))))))
  rw [write_header_length cl, Nat.mod_eq_of_lt hvi] at r8
  have r12 := request_read_u32_at (write_header cl ++ u32le v.info.length) v.producers.length
    (u32le v.consumers.length ++
      ((v.producers.map ChannelEntry_bytes).flatten ++
        ((v.consumers.map ChannelEntry_bytes).flatten ++ (v.info ++
          ((v.producers.map ChannelParam.info).flatten ++
            (v.consumers.map ChannelParam.info).flatten)))))
  rw [show (write_header cl ++ u32le v.info.length).length = 12 by
        simp [write_header, u16le, u32le], Nat.mod_eq_of_lt hP] at r12
  simp only [List.append_assoc] at r12
  have r16 := request_read_u32_at
    (write_header cl ++ u32le v.info.length ++ u32le v.producers.length) v.consumers.length
    ((v.producers.map ChannelEntry_bytes).flatten ++
      ((v.consumers.map ChannelEntry_bytes).flatten ++ (v.info ++
        ((v.producers.map ChannelParam.info).flatten ++
          (v.consumers.map ChannelParam.info).flatten))))
  rw [show (write_header cl ++ u32le v.info.length ++ u32le v.producers.length).length = 16 by
        simp [write_header, u16le, u32le], Nat.mod_eq_of_lt hC] at r16
  simp only [List.append_assoc] at r16
  rw [r8, r12, r16]
  dsimp only
  have hBlen : (write_header cl ++
      (u32le v.info.length ++
        (u32le v.producers.length ++
          (u32le v.consumers.length ++
            ((v.producers.map ChannelEntry_bytes).flatten ++
              ((v.consumers.map ChannelEntry_bytes).flatten ++
                (v.info ++
                  ((v.producers.map ChannelParam.info).flatten ++
                    (v.consumers.map ChannelParam.info).flatten)))))))).length =
      20 + 16 * v.producers.length + 16 * v.consumers.length + v.info.length +
        ((v.producers.map ChannelParam.info).flatten).length +
        ((v.consumers.map ChannelParam.info).flatten).length := by
    simp [write_header, u16le, u32le, entries_flatten_length, entries_sum_length]
    omega
  rw [if_pos (by rw [hBlen]; omega)]
  have hpc1 := parse_channels_spec v.producers
    (write_header cl ++ (u32le v.info.length ++ (u32le v.producers.length ++
      u32le v.consumers.length)))
    ((v.consumers.map ChannelEntry_bytes).flatten ++ v.info)
    ((v.consumers.map ChannelParam.info).flatten)
    20
    (20 + (v.producers.length + v.consumers.length) * 16 + v.info.length)
    hpv
    (by simp [write_header, u16le, u32le])
    (by simp [write_header, u16le, u32le, entries_flatten_length, entries_sum_length]; omega)
  simp only [List.append_assoc] at hpc1
  rw [hpc1]
  dsimp only
  have hpc2 := parse_channels_spec v.consumers
    (write_header cl ++ (u32le v.info.length ++ (u32le v.producers.length ++
      (u32le v.consumers.length ++ (v.producers.map ChannelEntry_bytes).flatten))))
    (v.info ++ (v.producers.map ChannelParam.info).flatten)
    []
    (20 + v.producers.length * 16)
    (20 + (v.producers.length + v.consumers.length) * 16 + v.info.length +
      ((v.producers.map ChannelParam.info).flatten).length)
    hcv
    (by simp [write_header, u16le, u32le, entries_flatten_length, entries_sum_length]; omega)
    (by simp [write_header, u16le, u32le, entries_flatten_length, entries_sum_length]; omega)
  simp only [List.append_assoc, List.append_nil] at hpc2
  rw [hpc2]
  dsimp only
  rw [if_pos (by rw [hBlen]; omega)]
  have hsl := byte_slice_append
    (write_header cl ++ (u32le v.info.length ++ (u32le v.producers.length ++
      (u32le v.consumers.length ++ ((v.producers.map ChannelEntry_bytes).flatten ++
        (v.consumers.map ChannelEntry_bytes).flatten)))))
    v.info
    ((v.producers.map ChannelParam.info).flatten ++
      (v.consumers.map ChannelParam.info).flatten)
  rw [show (write_header cl ++ (u32le v.info.length ++ (u32le v.producers.length ++
      (u32le v.consumers.length ++ ((v.producers.map ChannelEntry_bytes).flatten ++
        (v.consumers.map ChannelEntry_bytes).flatten))))).length =
      20 + (v.producers.length + v.consumers.length) * 16 by
    simp [write_header, u16le, u32le, entries_flatten_length, entries_sum_length]; omega] at hsl
  simp only [List.append_assoc] at hsl
  rw [hsl]

instance (c : ChannelParam) : Decidable c.Valid := by
  unfold ChannelParam.Valid; infer_instance

instance (v : VectorParam) : Decidable v.Valid := by
  unfold VectorParam.Valid; infer_instance

/-- A valid two-channel configuration for the round-trip witness. -/
def v6rt : VectorParam :=
  { consumers := [{ additional_messages := 2, message_size := 16, info := [], eventfd := false }]
    producers := [{ additional_messages := 0, message_size := 8, info := [9, 8], eventfd := true }]
    info := [7] }

/-- Claim C6, witness: the round trip at cache-line size 64 on a concrete
valid configuration with one producer and one consumer. -/
theorem C6_amended_witness :
    (64 : Nat) < 2 ^ 16 ∧ v6rt.Valid ∧
    parse_request 64 (create_request_message 64 v6rt) =
      some { consumers := v6rt.producers, producers := v6rt.consumers, info := v6rt.info } :=
  ⟨by decide, by decide, C6_amended 64 (by decide) v6rt (by decide)⟩
